import Mathlib

/-!
Verification of the dirsearch-go path-discovery engine.

Go strings are modelled as lists of characters (`Str`); the Go standard
library helpers used by the code (`strings.HasPrefix`, `strings.HasSuffix`,
`strings.Contains`, `strings.TrimSuffix`, `strings.Split`,
`strings.TrimSpace`, `strings.ReplaceAll`) are embedded below with their
documented semantics. Each embedded repository function carries a doc
comment naming the Go source it is translated from.
-/

namespace DirsearchGo

/-- Go strings as character lists. -/
abbrev Str := List Char

/-- Coercion from a Lean string literal to the character-list model. -/
def str (s : String) : Str := s.data

/-- Go strings.HasPrefix(s, pre). -/
def startsWith (s pre : Str) : Bool := decide (pre <+: s)

/-- Go strings.HasSuffix(s, suf). -/
def endsWith (s suf : Str) : Bool := decide (suf <:+ s)

/-- Go strings.Contains(s, sub). -/
def containsSub (s sub : Str) : Bool := decide (sub <:+: s)

/-- Go strings.TrimSuffix(s, suf): removes one copy of suf when it is a
suffix of s, otherwise returns s unchanged. -/
def trimSuffix (s suf : Str) : Str :=
  if suf <:+ s then s.take (s.length - suf.length) else s

/-- Embedded from src/main.go, Scanner.smartPathJoin: trims one trailing
slash and then one trailing backslash from the base, then joins base and
path depending on the separators found in the path. -/
def smartPathJoin (base path : Str) : Str :=
  let base1 := trimSuffix (trimSuffix base ['/']) ['\\']
  if path = [] then base1 ++ ['/']
  else if startsWith path ['/'] || startsWith path ['\\'] then base1 ++ path
  else if endsWith path ['/'] || endsWith path ['\\'] then base1 ++ ['/'] ++ path
  else if containsSub path ['/'] || containsSub path ['\\'] then base1 ++ ['/'] ++ path
  else base1 ++ ['/'] ++ path

/-- The spec's URL join rule, written from the spec text: with trimmedB the
target with its trailing slash and backslash stripped, an empty path gives
trimmedB plus a slash, a path starting with a separator is appended
directly, and every other path is appended after a single slash. -/
def specJoin (base path : Str) : Str :=
  let trimmedB := trimSuffix (trimSuffix base ['/']) ['\\']
  if path = [] then trimmedB ++ ['/']
  else if startsWith path ['/'] || startsWith path ['\\'] then trimmedB ++ path
  else trimmedB ++ ['/'] ++ path

/-- Embedded from src/main.go, Scanner.normalizeTargets (per-element body):
trims one trailing slash, then one trailing backslash, then appends a
slash. -/
def normalizeTarget (t : Str) : Str :=
  trimSuffix (trimSuffix t ['/']) ['\\'] ++ ['/']

/-- Embedded from src/main.go, Scanner.normalizeTargets: maps the
normalization over all targets. -/
def normalizeTargets (targets : List Str) : List Str :=
  targets.map normalizeTarget

/-- C1: smartPathJoin agrees with the spec's join rule on every base and
path — empty path gives trimmed base plus slash, a path starting with a
separator is appended directly, and every other non-empty path (including
paths with internal or trailing separators) is appended after a single
slash; in particular join of https://h and a/b is https://h/a/b. -/
theorem smartPathJoin_matches_spec :
    (∀ base path, smartPathJoin base path = specJoin base path) ∧
    smartPathJoin (str r"https://h") (str r"a/b") = str r"https://h/a/b" := by
  refine ⟨?_, by decide⟩
  intro b p
  unfold smartPathJoin specJoin
  repeat' split
  all_goals rfl

/-- C9 counterexample: for the input target a// the normalization strips
only one trailing slash, so the output a// still ends with two
separators, refuting the claim that the output never ends with two or
more separators. -/
theorem normalizeTarget_two_separators :
    normalizeTarget (str r"a//") = str r"a//" ∧
    endsWith (normalizeTarget (str r"a//")) (str r"//") = true := by
  decide

/-- C9 amended: every normalized target ends with a slash (at least one
trailing separator), because normalization strips at most one trailing
slash and then at most one trailing backslash before appending a single
slash; inputs with several trailing separators can still yield outputs
ending in more than one separator. -/
theorem normalizeTargets_end_slash :
    ∀ ts t, t ∈ normalizeTargets ts → endsWith t ['/'] = true := by
  intro ts t ht
  simp only [normalizeTargets, List.mem_map] at ht
  obtain ⟨x, _, rfl⟩ := ht
  unfold normalizeTarget endsWith
  exact decide_eq_true (List.suffix_append _ _)

/-- Witness for the amended C9 theorem at the concrete input http://h. -/
theorem normalizeTargets_end_slash_witness :
    endsWith (str r"http://h/") ['/'] = true :=
  normalizeTargets_end_slash [str r"http://h"] (str r"http://h/") (by decide)

/-- Go strings.ToLower restricted to ASCII (the protected-extension names
compared against are all ASCII). -/
def toLowerStr (s : Str) : Str := s.map Char.toLower

/-- Character class of the Go regular expression [a-zA-Z0-9]. -/
def isAlnumGo (c : Char) : Bool := c.isAlpha || c.isDigit

/-- Go strings.ReplaceAll(s, old, new) for a nonempty pattern: replaces
every non-overlapping leftmost occurrence of old by new. The dictionary
only ever calls this with the literal pattern %EXT%; for an empty pattern
this embedding returns s unchanged (Go would intersperse new, a case the
source never exercises). -/
def replaceAll (old new : Str) : Str → Str
  | [] => []
  | c :: rest =>
    if h : old ≠ [] ∧ old <+: (c :: rest) then
      new ++ replaceAll old new ((c :: rest).drop old.length)
    else
      c :: replaceAll old new rest
termination_by s => s.length
decreasing_by
  · simp only [List.length_drop, List.length_cons]
    have h1 : 0 < old.length := List.length_pos.mpr h.1
    omega
  · simp only [List.length_cons]
    omega

/-- Embedded from src/internal/dictionary/dictionary.go: the Dictionary
fields read by GeneratePaths. The force/overwrite flags and the
exclude-extension list live in the Go config; extensions, prefixes,
suffixes and the loaded word list are Dictionary fields. -/
structure Dictionary where
  forceExtensions : Bool
  overwriteExtensions : Bool
  excludeExtensions : List Str
  extensions : List Str
  prefixes : List Str
  suffixes : List Str
  words : List Str

/-- Protected extension list of Dictionary.replaceExtension. -/
def protectedExts : List Str :=
  [str r"log", str r"json", str r"xml", str r"jpg", str r"jpeg", str r"png",
   str r"gif", str r"bmp", str r"ico", str r"svg", str r"css", str r"js",
   str r"woff", str r"woff2", str r"ttf", str r"eot"]

/-- Stem of a word matching the Go regular expression \.[a-zA-Z0-9]+$ —
some stem when the word ends in a dot followed by a nonempty alphanumeric
run, none otherwise. -/
def trailingExtStem (word : Str) : Option Str :=
  let rev := word.reverse
  let ext := rev.takeWhile isAlnumGo
  match rev.drop ext.length with
  | '.' :: restRev => if ext = [] then none else some restRev.reverse
  | _ => none

/-- Embedded from Dictionary.replaceExtension: protected trailing
extensions are kept; otherwise a trailing .xxx extension is replaced by
the new one, or the new extension is appended when none exists. -/
def replaceExtension (word newExt : Str) : Str :=
  if protectedExts.any (fun p => endsWith (toLowerStr word) (['.'] ++ p)) then
    word
  else
    match trailingExtStem word with
    | some stem => stem ++ ['.'] ++ newExt
    | none => word ++ ['.'] ++ newExt

/-- Embedded from Dictionary.shouldExcludeWord. -/
def shouldExcludeWord (dict : Dictionary) (word : Str) : Bool :=
  dict.excludeExtensions.any (fun e => endsWith word (['.'] ++ e))

/-- Helper of Dictionary.deduplicate: the seen-set loop. -/
def dedupAux : List Str → List Str → List Str
  | _, [] => []
  | seen, p :: rest =>
    if p ∈ seen then dedupAux seen rest else p :: dedupAux (p :: seen) rest

/-- Embedded from Dictionary.deduplicate: keeps first occurrences in
order. -/
def deduplicate (paths : List Str) : List Str := dedupAux [] paths

/-- Embedded from Dictionary.GeneratePaths, per-word loop body: the
extension-mode block, then the prefix loop, then the suffix loop (which
skips words ending in a slash). -/
def generatePathsWord (dict : Dictionary) (word : Str) : List Str :=
  (if dict.forceExtensions then
     [word] ++ dict.extensions.map (fun ext => word ++ ['.'] ++ ext) ++ [word ++ ['/']]
   else if dict.overwriteExtensions then
     [word] ++ dict.extensions.map (fun ext => replaceExtension word ext)
   else if containsSub word (str r"%EXT%") then
     dict.extensions.map (fun ext => replaceAll (str r"%EXT%") ext word)
   else [word])
  ++ dict.prefixes.map (fun pre => pre ++ word)
  ++ (if endsWith word ['/'] then [] else dict.suffixes.map (fun suf => word ++ suf))

/-- Embedded from Dictionary.GeneratePaths: excluded words are skipped,
each remaining word is expanded, and the whole sequence is deduplicated.
The Go function's error return is always nil. -/
def generatePaths (dict : Dictionary) : List Str :=
  deduplicate ((dict.words.filter (fun w => ! shouldExcludeWord dict w)).flatMap
    (generatePathsWord dict))

/-- C2: with words [admin], extensions [php], empty prefix, suffix and
exclude lists, and force-extensions mode, GeneratePaths returns exactly
admin, admin.php, admin/ in that order. -/
theorem generatePaths_force_admin :
    generatePaths
      { forceExtensions := true, overwriteExtensions := false,
        excludeExtensions := [], extensions := [str r"php"],
        prefixes := [], suffixes := [], words := [str r"admin"] } =
      [str r"admin", str r"admin.php", str r"admin/"] := by
  decide

/-- Embedded from src/internal/report/reporter.go, report.ScanResult.
Go time.Time is modelled as a natural timestamp, the error as an optional
message, and the http.Header (which can be nil) as an optional list of
key-value pairs whose keys are stored in canonical form as Go does. -/
structure ScanResult where
  url : Str
  path : Str
  statusCode : Int
  size : Int
  title : Str
  redirect : Str
  error : Option Str
  timestamp : Nat
  isDirectory : Bool
  recursionLevel : Nat
  headers : Option (List (Str × Str))
  body : Str
deriving DecidableEq

/-- Fields of config.GeneralConfig read by the scanner core. -/
structure GeneralConfig where
  threads : Int
  maxRecursionDepth : Int
  includeStatus : List Str
  excludeStatus : List Str
deriving DecidableEq

/-- Fields of config.ViewConfig read by the scanner core. -/
structure ViewConfig where
  recursiveScan : Bool
  headless : Bool
deriving DecidableEq

/-- The configuration slice consumed by the scanner. -/
structure Config where
  general : GeneralConfig
  view : ViewConfig
deriving DecidableEq

/-- Whitespace class of Go strings.TrimSpace and the fmt scanner,
restricted to ASCII. -/
def isSpaceGo (c : Char) : Bool :=
  c = ' ' || c = '\t' || c = '\n' || c = '\x0b' || c = '\x0c' || c = '\r'

/-- Go strings.TrimSpace. -/
def trimSpace (s : Str) : Str :=
  ((s.dropWhile isSpaceGo).reverse.dropWhile isSpaceGo).reverse

/-- Value of a run of decimal digits. -/
def digitsVal (ds : List Char) : Int :=
  ds.foldl (fun acc c => acc * 10 + (Int.ofNat c.toNat - Int.ofNat '0'.toNat)) 0

/-- Embedded from config.parseInt, which wraps fmt.Sscanf with the %d
verb: optional leading spaces and sign, then a nonempty run of decimal
digits (trailing input is ignored); none when no digits are present. -/
def parseInt (s : Str) : Option Int :=
  let s1 := s.dropWhile (fun c => c = ' ' || c = '\t')
  let signNeg := startsWith s1 ['-']
  let s2 := if signNeg || startsWith s1 ['+'] then s1.drop 1 else s1
  let digits := s2.takeWhile Char.isDigit
  if digits = [] then none
  else some (if signNeg then -(digitsVal digits) else digitsVal digits)

/-- Inclusive integer range of the Go loop for i from a to b. -/
def rangeInts (a b : Int) : List Int :=
  (List.range (b + 1 - a).toNat).map (fun i => a + i)

/-- Embedded from src/internal/config/config.go, ParseStatusCodes: splits
on commas, trims each part, expands A-B parts with exactly two
dash-separated pieces into the inclusive range, parses other parts as
single codes, and silently drops pieces that fail to parse. The Go
function always returns a nil error. -/
def parseStatusCodes (statusStr : Str) : List Int :=
  if statusStr = [] then []
  else
    (statusStr.splitOn ',').flatMap (fun rawPart =>
      let part := trimSpace rawPart
      if part = [] then []
      else if containsSub part ['-'] then
        match part.splitOn '-' with
        | [s1, s2] =>
          match parseInt (trimSpace s1), parseInt (trimSpace s2) with
          | some a, some b => rangeInts a b
          | _, _ => []
        | _ => []
      else
        match parseInt part with
        | some c => [c]
        | none => [])

/-- Embedded from src/main.go, Scanner.shouldIncludeResult: when an
include list is configured the status code must match one of its parsed
specifications, and a match against any exclude specification rejects the
result. The error branches of the Go code are dead because
ParseStatusCodes never returns a non-nil error. -/
def shouldIncludeResult (cfg : Config) (result : ScanResult) : Bool :=
  let includeOk :=
    if cfg.general.includeStatus ≠ [] then
      cfg.general.includeStatus.any (fun statusStr =>
        decide (result.statusCode ∈ parseStatusCodes statusStr))
    else true
  includeOk &&
    !(cfg.general.excludeStatus.any (fun statusStr =>
        decide (result.statusCode ∈ parseStatusCodes statusStr)))

/-- A probe result carrying only a status code, for the filter examples. -/
def resWithStatus (c : Int) : ScanResult :=
  { url := [], path := [], statusCode := c, size := 0, title := [],
    redirect := [], error := none, timestamp := 0, isDirectory := false,
    recursionLevel := 0, headers := none, body := [] }

/-- C3: a result is retained iff it is not the case that a non-empty
include list is configured and its status code matches none of the parsed
codes or ranges, and not the case that its status code matches a parsed
exclude specification; concretely, include 200 and 301-302 retains
exactly 200, 301 and 302 out of 200, 301, 302 and 404, and adding
exclude 301 retains exactly 200 and 302, so exclusion wins. -/
theorem shouldIncludeResult_spec :
    (∀ cfg r, shouldIncludeResult cfg r = true ↔
      (¬ (cfg.general.includeStatus ≠ [] ∧
          ∀ s ∈ cfg.general.includeStatus, r.statusCode ∉ parseStatusCodes s)) ∧
      (¬ ∃ s ∈ cfg.general.excludeStatus, r.statusCode ∈ parseStatusCodes s)) ∧
    (([200, 301, 302, 404] : List Int).filter
        (fun c => shouldIncludeResult
          { general := { threads := 25, maxRecursionDepth := 0,
                         includeStatus := [str r"200", str r"301-302"],
                         excludeStatus := [] },
            view := { recursiveScan := false, headless := false } }
          (resWithStatus c)) = [200, 301, 302]) ∧
    (([200, 301, 302, 404] : List Int).filter
        (fun c => shouldIncludeResult
          { general := { threads := 25, maxRecursionDepth := 0,
                         includeStatus := [str r"200", str r"301-302"],
                         excludeStatus := [str r"301"] },
            view := { recursiveScan := false, headless := false } }
          (resWithStatus c)) = [200, 302]) := by
  refine ⟨?_, by decide, by decide⟩
  intro cfg r
  unfold shouldIncludeResult
  by_cases hinc : cfg.general.includeStatus = [] <;>
    simp [hinc, List.any_eq_true]

/-- One millisecond in nanoseconds (Go time.Duration units). -/
def msNs : Int := 1000000

/-- One second in nanoseconds (Go time.Duration units). -/
def secNs : Int := 1000000000

/-- Embedded from the connection.SmartDelay struct: durations are Go
time.Duration values, that is, nanosecond counts. The multiplier is a Go
float64 that NewSmartDelay sets to 10.0; for the nanosecond magnitudes
considered here (at most tens of seconds) the Go computation
time.Duration(float64(d) * 10.0) is exact integer arithmetic well below
2^53, so the model uses integers. -/
structure SmartDelay where
  baseDelay : Int
  multiplier : Int
  pingDelay : Int
  configTimeout : Int
deriving DecidableEq

/-- Embedded from SmartDelay.GetSmartDelay: with a positive measured ping
delay, ten times the ping delay clamped between 100ms and 5s; otherwise
the statically configured base delay. -/
def getSmartDelay (sd : SmartDelay) : Int :=
  if sd.pingDelay > 0 then
    let smart := sd.pingDelay * sd.multiplier
    let minDelay := 100 * msNs
    let maxDelay := 5 * secNs
    if smart < minDelay then minDelay
    else if smart > maxDelay then maxDelay
    else smart
  else sd.baseDelay

/-- Embedded from SmartDelay.GetTimeout: with a positive measured ping
delay, thirty times the ping delay clamped between 5s and 30s; otherwise
the statically configured timeout. -/
def getTimeout (sd : SmartDelay) : Int :=
  if sd.pingDelay > 0 then
    let t := sd.pingDelay * 30
    let minT := 5 * secNs
    let maxT := 30 * secNs
    if t < minT then minT
    else if t > maxT then maxT
    else t
  else sd.configTimeout

/-- The spec's clamp(v, lo, hi). -/
def specClamp (v lo hi : Int) : Int :=
  if v < lo then lo else if v > hi then hi else v

/-- C5 counterexample: at baseline latency 0 (no measured ping delay) the
code falls back to the configured base delay and timeout instead of the
clamped smart values, so with a zero configured delay the derived delay
is 0, not clamp(0, 100ms, 5s) = 100ms, and lies outside [100ms, 5s];
likewise the timeout falls outside [5s, 30s]. -/
theorem smartDelay_zero_baseline :
    getSmartDelay { baseDelay := 0, multiplier := 10, pingDelay := 0, configTimeout := 0 } = 0 ∧
    specClamp (0 * 10) (100 * msNs) (5 * secNs) = 100 * msNs ∧
    getTimeout { baseDelay := 0, multiplier := 10, pingDelay := 0, configTimeout := 0 } = 0 ∧
    specClamp (0 * 30) (5 * secNs) (30 * secNs) = 5 * secNs := by
  decide

/-- C5 amended: for every strictly positive baseline latency up to 10s,
with the constructor's multiplier of 10, the smart delay equals
clamp(baseline times 10, 100ms, 5s) and lies in [100ms, 5s], and the
smart timeout equals clamp(baseline times 30, 5s, 30s) and lies in
[5s, 30s]; the zero baseline is excluded because the code then falls
back to the configured static values. -/
theorem smartDelay_clamp_spec :
    ∀ sd : SmartDelay, sd.multiplier = 10 →
      0 < sd.pingDelay → sd.pingDelay ≤ 10 * secNs →
      getSmartDelay sd = specClamp (sd.pingDelay * 10) (100 * msNs) (5 * secNs) ∧
      100 * msNs ≤ getSmartDelay sd ∧ getSmartDelay sd ≤ 5 * secNs ∧
      getTimeout sd = specClamp (sd.pingDelay * 30) (5 * secNs) (30 * secNs) ∧
      5 * secNs ≤ getTimeout sd ∧ getTimeout sd ≤ 30 * secNs := by
  intro sd hm hpos hub
  simp only [getSmartDelay, getTimeout, specClamp, msNs, secNs, hm]
  unfold secNs at hub
  split_ifs <;> omega

/-- Witness for the amended C5 theorem at a one-second baseline. -/
theorem smartDelay_clamp_spec_witness :
    getSmartDelay { baseDelay := 0, multiplier := 10, pingDelay := 1000000000, configTimeout := 0 } =
      specClamp (1000000000 * 10) (100 * msNs) (5 * secNs) ∧
    100 * msNs ≤ getSmartDelay { baseDelay := 0, multiplier := 10, pingDelay := 1000000000, configTimeout := 0 } ∧
    getSmartDelay { baseDelay := 0, multiplier := 10, pingDelay := 1000000000, configTimeout := 0 } ≤ 5 * secNs ∧
    getTimeout { baseDelay := 0, multiplier := 10, pingDelay := 1000000000, configTimeout := 0 } =
      specClamp (1000000000 * 30) (5 * secNs) (30 * secNs) ∧
    5 * secNs ≤ getTimeout { baseDelay := 0, multiplier := 10, pingDelay := 1000000000, configTimeout := 0 } ∧
    getTimeout { baseDelay := 0, multiplier := 10, pingDelay := 1000000000, configTimeout := 0 } ≤ 30 * secNs :=
  smartDelay_clamp_spec
    { baseDelay := 0, multiplier := 10, pingDelay := 1000000000, configTimeout := 0 }
    rfl (by decide) (by decide)

/-- Go http.Header.Get: the first value stored under the (canonical) key,
or the empty string when the key is absent. -/
def headerGet (hdrs : List (Str × Str)) (key : Str) : Str :=
  match hdrs.find? (fun p => decide (p.fst = key)) with
  | some p => p.snd
  | none => []

/-- Embedded from src/main.go, Scanner.isDirectory: true when the URL
ends in a slash; otherwise, when the headers are present, true when the
Content-Type contains text/html and the body contains one of the three
directory-listing markers. -/
def isDirectory (result : ScanResult) : Bool :=
  if endsWith result.url ['/'] then true
  else
    match result.headers with
    | none => false
    | some hdrs =>
      let contentType := headerGet hdrs (str r"Content-Type")
      if containsSub contentType (str r"text/html") then
        if containsSub result.body (str r"<title>Index of") ||
           containsSub result.body (str r"Directory listing for") ||
           containsSub result.body (str r"Parent Directory") then true
        else false
      else false

/-- The spec's directory classification, written from the spec text: a
result is a directory iff its URL ends with a slash, or its Content-Type
contains text/html and the body contains one of the three literal
directory-listing substrings (absent headers carry no Content-Type). -/
def specIsDirectory (result : ScanResult) : Bool :=
  endsWith result.url ['/'] ||
  (containsSub (headerGet (result.headers.getD []) (str r"Content-Type")) (str r"text/html") &&
   (containsSub result.body (str r"<title>Index of") ||
    containsSub result.body (str r"Directory listing for") ||
    containsSub result.body (str r"Parent Directory")))

/-- C6: the directory predicate is a pure function of url, headers and
body and agrees with the spec classification on every result. -/
theorem isDirectory_spec : ∀ r, isDirectory r = specIsDirectory r := by
  intro r
  unfold isDirectory specIsDirectory
  cases hh : r.headers with
  | none =>
    have hempty :
        containsSub (headerGet [] (str r"Content-Type")) (str r"text/html") = false := by
      decide
    cases hu : endsWith r.url ['/'] <;> simp [hu, hempty]
  | some hdrs =>
    cases hu : endsWith r.url ['/'] <;>
      cases hct : containsSub (headerGet hdrs (str r"Content-Type")) (str r"text/html") <;>
        simp [hu, hct]

/-- Result of Go net/url.Parse as far as the scanner inspects it. -/
structure ParsedURL where
  scheme : Str
  host : Str
deriving DecidableEq

/-- Raw outcome of the HTTP transport: status, fully read body, headers. -/
structure RawResp where
  statusCode : Int
  body : Str
  headers : List (Str × Str)
deriving DecidableEq

/-- Embedded from connection.Response. -/
structure Response where
  statusCode : Int
  contentLength : Int
  body : Str
  redirect : Str
  headers : List (Str × Str)
deriving DecidableEq

/-- Index of the first occurrence of pat in s (Go strings.Index). -/
def indexOfSub (pat : Str) : Str → Option Nat
  | [] => if pat = [] then some 0 else none
  | c :: rest =>
    if pat <+: (c :: rest) then some 0
    else (indexOfSub pat rest).map (fun i => i + 1)

/-- Embedded from src/main.go, Scanner.extractTitle: the span between the
first occurrence of the opening title tag and the next closing tag,
trimmed; empty when the body or either marker is missing. -/
def extractTitle (body : Str) : Str :=
  if body = [] then []
  else
    match indexOfSub (str r"<title>") body with
    | none => []
    | some i =>
      let start := i + 7
      match indexOfSub (str r"</title>") (body.drop start) with
      | none => []
      | some j => trimSpace ((body.drop start).take j)

/-- Embedded from src/main.go, Scanner.buildURL: joins target and path
with smartPathJoin, then validates the result with the URL parser
(modelled as an oracle) and requires a nonempty scheme and host. -/
def buildURL (urlParse : Str → Option ParsedURL) (target path : Str) :
    Except Str Str :=
  let fullURL := smartPathJoin target path
  match urlParse fullURL with
  | none => Except.error (str r"invalid URL")
  | some p =>
    if p.scheme = [] ∨ p.host = [] then
      Except.error (str r"invalid URL: missing scheme or host")
    else Except.ok fullURL

/-- Embedded from connection.Requester.Request (src/unnamed/part_001).
The net/url parser, the HTTP transport (client.Do together with the body
read) and the host manager's slow-response decision are external effects
passed as oracles; header, cookie, auth and timing bookkeeping do not
influence the returned value. A transport failure becomes an error
return; otherwise the body is truncated to the first 1KB for slow
responses, and the redirect is the Location header for 3xx statuses
(empty otherwise, which coincides with Go leaving it unset when the
header is absent). -/
def requesterRequest (urlParse : Str → Option ParsedURL)
    (transport : Str → Except Str RawResp) (slow : Str → Bool)
    (targetURL : Str) : Except Str Response :=
  match urlParse targetURL with
  | none => Except.error (str r"invalid URL")
  | some _ =>
    match transport targetURL with
    | Except.error e => Except.error (str r"request failed: " ++ e)
    | Except.ok raw =>
      let bodyBytes := if slow targetURL then raw.body.take 1024 else raw.body
      let redirect :=
        if 300 ≤ raw.statusCode ∧ raw.statusCode < 400 then
          headerGet raw.headers (str r"Location")
        else []
      Except.ok { statusCode := raw.statusCode,
                  contentLength := Int.ofNat bodyBytes.length,
                  body := bodyBytes, redirect := redirect,
                  headers := raw.headers }

/-- Result type of the headless browser probe (connection.HeadlessBrowser.ScanURL). -/
structure HeadlessResult where
  error : Option Str
  statusCode : Int
  contentLength : Int
  title : Str
  redirects : List Str
deriving DecidableEq

/-- Embedded from src/main.go, Scanner.scanPath: records target, path and
timestamp up front, then fills status, size, title, redirect, headers and
body from the probe, or the error field when URL building or the request
fails; useHeadless stands for the headless mode being enabled with a live
browser. The function is total: no failure escapes as an exception. -/
def scanPath (urlParse : Str → Option ParsedURL)
    (transport : Str → Except Str RawResp) (slow : Str → Bool)
    (useHeadless : Bool) (headlessScan : Str → HeadlessResult)
    (target path : Str) (now : Nat) : ScanResult :=
  let result : ScanResult :=
    { url := target, path := path, statusCode := 0, size := 0, title := [],
      redirect := [], error := none, timestamp := now, isDirectory := false,
      recursionLevel := 0, headers := none, body := [] }
  match buildURL urlParse target path with
  | Except.error e => { result with error := some (str r"failed to build URL: " ++ e) }
  | Except.ok fullURL =>
    if useHeadless then
      let hr := headlessScan fullURL
      match hr.error with
      | some e => { result with error := some e }
      | none =>
        { result with statusCode := hr.statusCode, size := hr.contentLength,
                      title := hr.title,
                      redirect := List.intercalate (str r" -> ") hr.redirects }
    else
      match requesterRequest urlParse transport slow fullURL with
      | Except.error e => { result with error := some (str r"request failed: " ++ e) }
      | Except.ok resp =>
        { result with statusCode := resp.statusCode, size := resp.contentLength,
                      title := extractTitle resp.body, redirect := resp.redirect,
                      headers := some resp.headers, body := resp.body }

/-- C8: when the transport fails on the built URL (and URL building
itself succeeds), scanPath still returns a ScanResult — no error escapes
— whose error field is set, whose status code is the zero value, and
whose target, path and timestamp are recorded. -/
theorem scanPath_transport_error :
    ∀ (urlParse : Str → Option ParsedURL) (transport : Str → Except Str RawResp)
      (slow : Str → Bool) (headlessScan : Str → HeadlessResult)
      (target path : Str) (now : Nat) (pu : ParsedURL) (e : Str),
      urlParse (smartPathJoin target path) = some pu →
      pu.scheme ≠ [] → pu.host ≠ [] →
      transport (smartPathJoin target path) = Except.error e →
      (scanPath urlParse transport slow false headlessScan target path now).error.isSome = true ∧
      (scanPath urlParse transport slow false headlessScan target path now).statusCode = 0 ∧
      (scanPath urlParse transport slow false headlessScan target path now).url = target ∧
      (scanPath urlParse transport slow false headlessScan target path now).path = path ∧
      (scanPath urlParse transport slow false headlessScan target path now).timestamp = now := by
  intro urlParse transport slow headlessScan target path now pu e hp hsch hhost htr
  simp [scanPath, buildURL, requesterRequest, hp, htr, hsch, hhost]

/-- Concrete URL parse oracle for the C8 witness. -/
def urlParseW : Str → Option ParsedURL :=
  fun _ => some { scheme := str r"http", host := str r"h" }

/-- Concrete failing transport for the C8 witness. -/
def transportW : Str → Except Str RawResp :=
  fun _ => Except.error (str r"connection refused")

/-- Concrete slow-response oracle for the C8 witness. -/
def slowW : Str → Bool := fun _ => false

/-- Concrete headless oracle for the C8 witness (unused branch). -/
def headlessW : Str → HeadlessResult :=
  fun _ => { error := none, statusCode := 0, contentLength := 0, title := [], redirects := [] }

/-- Witness for C8 at a concrete refused connection. -/
theorem scanPath_transport_error_witness :
    (scanPath urlParseW transportW slowW false headlessW (str r"http://h/") (str r"admin") 7).error.isSome = true ∧
    (scanPath urlParseW transportW slowW false headlessW (str r"http://h/") (str r"admin") 7).statusCode = 0 ∧
    (scanPath urlParseW transportW slowW false headlessW (str r"http://h/") (str r"admin") 7).url = str r"http://h/" ∧
    (scanPath urlParseW transportW slowW false headlessW (str r"http://h/") (str r"admin") 7).path = str r"admin" ∧
    (scanPath urlParseW transportW slowW false headlessW (str r"http://h/") (str r"admin") 7).timestamp = 7 :=
  scanPath_transport_error urlParseW transportW slowW headlessW
    (str r"http://h/") (str r"admin") 7
    { scheme := str r"http", host := str r"h" } (str r"connection refused")
    rfl (by decide) (by decide) rfl

mutual

/-- Embedded from src/main.go, Scanner.executeScan: empty target or path
lists yield an empty result list; otherwise the worker pool probes every
(target, path) pair and the collector stamps each result with the current
recursion level (the pool is concurrency plumbing whose observable
outcome is this result list; the model fixes the task production order,
which the Go code does not guarantee); when recursive scanning is enabled
and the level is below the hardcoded ceiling of 3, the recursive pass at
the next level is appended. The probe corresponds to scanPath and is a
parameter. -/
def executeScan (cfg : Config) (dict : Dictionary)
    (probe : Str → Str → ScanResult) (targets paths : List Str)
    (recursionLevel : Nat) : List ScanResult :=
  if targets = [] ∨ paths = [] then []
  else
    let results := targets.flatMap (fun t =>
      paths.map (fun p => { probe t p with recursionLevel := recursionLevel }))
    if h : cfg.view.recursiveScan = true ∧ recursionLevel < 3 then
      results ++ performRecursiveScan cfg dict probe results (recursionLevel + 1)
    else results
termination_by (4 - recursionLevel, 0)

/-- Embedded from src/main.go, Scanner.performRecursiveScan: collects the
URLs of results with status 200 or 403 that classify as directories and
scans each one with a freshly regenerated — identical — candidate path
set at the given level (Dictionary.GeneratePaths always succeeds, so the
error branches are dead); the Go assignment to the loop copy's
IsDirectory field is lost and does not change the collected results. -/
def performRecursiveScan (cfg : Config) (dict : Dictionary)
    (probe : Str → Str → ScanResult) (results : List ScanResult)
    (recursionLevel : Nat) : List ScanResult :=
  let directories :=
    (results.filter (fun r =>
      decide (r.statusCode = 200 ∨ r.statusCode = 403) && isDirectory r)).map
      (fun r => r.url)
  directories.flatMap (fun d =>
    executeScan cfg dict probe [d] (generatePaths dict) recursionLevel)
termination_by (4 - recursionLevel, 1)

end

/-- Embedded from src/main.go, Scanner.addResult: the only operation that
appends to the Scanner's retained result list s.results, guarded by the
status filter. -/
def addResult (cfg : Config) (st : List ScanResult) (result : ScanResult) :
    List ScanResult :=
  if shouldIncludeResult cfg result then st ++ [result] else st

/-- Embedded from src/main.go, Scanner.GetResults: returns a defensive
copy of the retained list; a copy is equal to the original as a value. -/
def getResults (st : List ScanResult) : List ScanResult := st

/-- The retained result list of a freshly constructed Scanner (NewScanner
initializes s.results to an empty slice). -/
def newScannerResults : List ScanResult := []

/-- Embedded from src/main.go, Scanner.Scan, with the retained-result
list s.results threaded as explicit state: the pipeline (liveness check,
normalization, path generation, executeScan, display calls) never reads
or writes s.results — the collector inside executeScan appends to a
local slice and no pipeline function calls addResult — so the state
passes through every branch unchanged. Liveness checking is an external
probe passed as an oracle; an empty target list and an all-dead target
list are the fatal errors. GeneratePaths and executeScan always return a
nil error in Go, so those propagation branches are dead. -/
def scanS (cfg : Config) (dict : Dictionary) (alive : Str → Bool)
    (probe : Str → Str → ScanResult) (st : List ScanResult)
    (targets : List Str) : Except Str (List ScanResult) × List ScanResult :=
  if targets = [] then (Except.error (str r"no targets specified"), st)
  else
    let aliveTargets := targets.filter alive
    if aliveTargets = [] then (Except.error (str r"没有存活的域名可以扫描"), st)
    else
      (Except.ok (executeScan cfg dict probe (normalizeTargets aliveTargets)
        (generatePaths dict) 0), st)

/-- Helper for the recursion ceiling: with enough fuel for the remaining
levels, every result of an executeScan pass started at a level at most 3
carries a recursion level at most 3. -/
theorem executeScan_level_aux :
    ∀ (fuel : Nat) (cfg : Config) (dict : Dictionary)
      (probe : Str → Str → ScanResult) (lvl : Nat),
      lvl ≤ 3 → 4 - lvl ≤ fuel →
      ∀ targets paths r, r ∈ executeScan cfg dict probe targets paths lvl →
        r.recursionLevel ≤ 3 := by
  intro fuel
  induction fuel with
  | zero => intro cfg dict probe lvl h3 hf; omega
  | succ n ih =>
    intro cfg dict probe lvl h3 hf targets paths r hr
    simp only [executeScan] at hr
    by_cases hemp : targets = [] ∨ paths = []
    · rw [if_pos hemp] at hr
      simp at hr
    · rw [if_neg hemp] at hr
      by_cases hrec : cfg.view.recursiveScan = true ∧ lvl < 3
      · rw [dif_pos hrec] at hr
        rcases List.mem_append.mp hr with hbase | hrecm
        · simp only [List.mem_flatMap, List.mem_map] at hbase
          obtain ⟨t, ht, p, hp, rfl⟩ := hbase
          exact h3
        · simp only [performRecursiveScan, List.mem_flatMap] at hrecm
          obtain ⟨d, hd, hm⟩ := hrecm
          have hl3 : lvl < 3 := hrec.2
          exact ih cfg dict probe (lvl + 1) (by omega) (by omega) [d]
            (generatePaths dict) r hm
      · rw [dif_neg hrec] at hr
        simp only [List.mem_flatMap, List.mem_map] at hr
        obtain ⟨t, ht, p, hp, rfl⟩ := hr
        exact h3

/-- Helper for the ceiling's independence from the general configuration:
executeScan reads only the view configuration, so two configurations with
the same view produce the same results. -/
theorem executeScan_view_only_aux :
    ∀ (fuel : Nat) (cfg1 cfg2 : Config), cfg1.view = cfg2.view →
      ∀ (dict : Dictionary) (probe : Str → Str → ScanResult) (lvl : Nat),
        4 - lvl ≤ fuel →
        ∀ targets paths,
          executeScan cfg1 dict probe targets paths lvl =
            executeScan cfg2 dict probe targets paths lvl := by
  intro fuel
  induction fuel with
  | zero =>
    intro cfg1 cfg2 hv dict probe lvl hf targets paths
    have h4 : 4 ≤ lvl := by omega
    simp only [executeScan]
    by_cases hemp : targets = [] ∨ paths = []
    · rw [if_pos hemp, if_pos hemp]
    · rw [if_neg hemp, if_neg hemp]
      have hr1 : ¬(cfg1.view.recursiveScan = true ∧ lvl < 3) :=
        fun hc => absurd hc.2 (by omega)
      have hr2 : ¬(cfg2.view.recursiveScan = true ∧ lvl < 3) :=
        fun hc => absurd hc.2 (by omega)
      rw [dif_neg hr1, dif_neg hr2]
  | succ n ih =>
    intro cfg1 cfg2 hv dict probe lvl hf targets paths
    simp only [executeScan]
    by_cases hemp : targets = [] ∨ paths = []
    · rw [if_pos hemp, if_pos hemp]
    · rw [if_neg hemp, if_neg hemp]
      have hcond : (cfg1.view.recursiveScan = true ∧ lvl < 3) ↔
          (cfg2.view.recursiveScan = true ∧ lvl < 3) := by rw [hv]
      by_cases hrec : cfg1.view.recursiveScan = true ∧ lvl < 3
      · have hl3 : lvl < 3 := hrec.2
        rw [dif_pos hrec, dif_pos (hcond.mp hrec)]
        congr 1
        simp only [performRecursiveScan]
        have he : (fun d => executeScan cfg1 dict probe [d] (generatePaths dict) (lvl + 1)) =
            (fun d => executeScan cfg2 dict probe [d] (generatePaths dict) (lvl + 1)) :=
          funext (fun d => ih cfg1 cfg2 hv dict probe (lvl + 1) (by omega) [d]
            (generatePaths dict))
        rw [he]
      · rw [dif_neg hrec, dif_neg (fun hc => hrec (hcond.mpr hc))]

/-- C4: every result of a scan started at level 0 carries a recursion
level at most 3 — recursion into discovered directories happens only
below the hardcoded ceiling of 3, so level 4 is never reached — and the
scan outcome depends on the configuration only through its view section,
so the ceiling is independent of the configured max-recursion-depth. -/
theorem executeScan_recursion_ceiling :
    (∀ cfg dict probe targets paths r,
       r ∈ executeScan cfg dict probe targets paths 0 → r.recursionLevel ≤ 3) ∧
    (∀ cfg1 cfg2 dict probe targets paths lvl, cfg1.view = cfg2.view →
       executeScan cfg1 dict probe targets paths lvl =
         executeScan cfg2 dict probe targets paths lvl) := by
  constructor
  · intro cfg dict probe targets paths r hr
    exact executeScan_level_aux 4 cfg dict probe 0 (by omega) (by omega)
      targets paths r hr
  · intro cfg1 cfg2 dict probe targets paths lvl hv
    exact executeScan_view_only_aux (4 - lvl) cfg1 cfg2 hv dict probe lvl
      (by omega) targets paths

/-- Concrete scanner configuration: recursion disabled, no filters. -/
def cfgW : Config :=
  { general := { threads := 25, maxRecursionDepth := 5, includeStatus := [],
                 excludeStatus := [] },
    view := { recursiveScan := false, headless := false } }

/-- Concrete one-word dictionary in default extension mode. -/
def dictW : Dictionary :=
  { forceExtensions := false, overwriteExtensions := false,
    excludeExtensions := [], extensions := [], prefixes := [], suffixes := [],
    words := [str r"admin"] }

/-- Concrete probe returning a 200 result. -/
def probeW : Str → Str → ScanResult := fun _ _ => resWithStatus 200

/-- Witness for C4 at a concrete one-target, one-path scan. -/
theorem executeScan_recursion_ceiling_witness :
    (resWithStatus 200).recursionLevel ≤ 3 :=
  executeScan_recursion_ceiling.1 cfgW dictW probeW [str r"http://h/"]
    [str r"admin"] (resWithStatus 200)
    (by simp [executeScan, cfgW, probeW, resWithStatus])

/-- An empty word list generates an empty candidate path list. -/
theorem generatePaths_words_nil :
    ∀ dict : Dictionary, dict.words = [] → generatePaths dict = [] := by
  intro dict hw
  simp [generatePaths, hw, deduplicate, dedupAux]

/-- executeScan with an empty candidate path list returns no results. -/
theorem executeScan_paths_nil :
    ∀ cfg dict probe targets lvl,
      executeScan cfg dict probe targets [] lvl = [] := by
  intro cfg dict probe targets lvl
  simp [executeScan]

/-- C7 counterexample: a scan with an empty word list against one alive
target returns a normal empty result list with a nil error — it does not
report a fatal error before probing. -/
theorem scan_empty_wordlist_counterexample :
    (scanS cfgW { dictW with words := [] } (fun _ => true) probeW
      newScannerResults [str r"http://h"]).fst = Except.ok [] := by
  simp [scanS, newScannerResults, executeScan_paths_nil,
    generatePaths_words_nil { dictW with words := [] } rfl]

/-- C7 amended: Scan is fatal exactly for an empty target list and for an
all-dead target list; with an empty word list (hence an empty candidate
path set) and at least one alive target it instead returns a normal empty
result list with no error. -/
theorem scan_empty_wordlist_spec :
    (∀ cfg dict alive probe st,
       (scanS cfg dict alive probe st []).fst =
         Except.error (str r"no targets specified")) ∧
    (∀ cfg dict alive probe st targets, targets ≠ [] →
       targets.filter alive = [] →
       (scanS cfg dict alive probe st targets).fst =
         Except.error (str r"没有存活的域名可以扫描")) ∧
    (∀ cfg dict alive probe st targets, dict.words = [] → targets ≠ [] →
       targets.filter alive ≠ [] →
       (scanS cfg dict alive probe st targets).fst = Except.ok []) := by
  refine ⟨?_, ?_, ?_⟩
  · intro cfg dict alive probe st
    simp [scanS]
  · intro cfg dict alive probe st targets ht hdead
    simp [scanS, ht, hdead]
  · intro cfg dict alive probe st targets hw ht halive
    simp [scanS, ht, halive, generatePaths_words_nil dict hw,
      executeScan_paths_nil]

/-- Witness for the amended C7 theorem: one alive target, empty words. -/
theorem scan_empty_wordlist_spec_witness :
    (scanS cfgW { dictW with words := [] } (fun _ => true) probeW
      newScannerResults [str r"http://x"]).fst = Except.ok [] :=
  scan_empty_wordlist_spec.2.2 cfgW { dictW with words := [] }
    (fun _ => true) probeW newScannerResults [str r"http://x"]
    rfl (by decide) (by decide)

/-- Concrete configuration whose exclude filter rejects status 200. -/
def cfgEx : Config :=
  { general := { threads := 25, maxRecursionDepth := 0, includeStatus := [],
                 excludeStatus := [str r"200"] },
    view := { recursiveScan := false, headless := false } }

/-- C10: the scan pipeline leaves the Scanner's retained result list
unchanged — no pipeline step calls addResult, the sole writer — so after
a scan on a fresh Scanner, GetResults returns an empty snapshot; and the
include/exclude status filter is never applied to the results Scan itself
returns: with a filter excluding status 200, the scan still returns the
200 result that the filter would reject. -/
theorem scan_frame_results :
    (∀ cfg dict alive probe st targets,
       (scanS cfg dict alive probe st targets).snd = st) ∧
    (∀ cfg dict alive probe targets,
       getResults (scanS cfg dict alive probe newScannerResults targets).snd = []) ∧
    (scanS cfgEx dictW (fun _ => true) probeW newScannerResults
       [str r"http://h"]).fst = Except.ok [resWithStatus 200] ∧
    shouldIncludeResult cfgEx (resWithStatus 200) = false := by
  have hsnd : ∀ cfg dict alive probe st targets,
      (scanS cfg dict alive probe st targets).snd = st := by
    intro cfg dict alive probe st targets
    simp only [scanS]
    split_ifs <;> rfl
  refine ⟨hsnd, ?_, ?_, by decide⟩
  · intro cfg dict alive probe targets
    rw [hsnd]
    rfl
  · have hgen : generatePaths dictW = [str r"admin"] := by decide
    have hnorm : normalizeTargets [str r"http://h"] = [str r"http://h/"] := by
      decide
    have hexe : executeScan cfgEx dictW probeW [str r"http://h/"]
        [str r"admin"] 0 = [resWithStatus 200] := by
      simp [executeScan, cfgEx, probeW]
      rfl
    simp [scanS, hnorm, hgen, hexe]

end DirsearchGo
